import Mathlib

/-!
Shallow embedding of the postcss-ruler plugin core (src/index.js).

Modelling conventions:
* JavaScript numbers are modelled as rationals (`ℚ`).  Every number the
  plugin manipulates comes from decimal tokens in the stylesheet or from the
  arithmetic in `calculateClamp`, so the double-precision rounding of the
  host language is abstracted away; `toFixed(4)` and JS default number
  printing are modelled exactly on rationals (round half away from zero,
  which is what `toFixed` does after extracting the sign).  NaN is modelled
  as `Option.none` where it can arise (the `Number(...)` coercions).
* Fallible code (functions containing `throw`) returns `Except String`,
  the `String` being the thrown error message.
* The registry of generated scales (`const scales = {}`, line 16) is passed
  explicitly as an insertion-ordered association list, mirroring JS object
  key ordering.
-/

namespace Ruler

/-- JS rounding of a rational to the nearest integer, half away from zero:
this is the rounding `toFixed` applies to the magnitude after extracting
the sign. -/
def jsRound (q : ℚ) : ℤ :=
  if q < 0 then -⌊-q + 1/2⌋ else ⌊q + 1/2⌋

/-- Value of `parseFloat(q.toFixed(4))`: `q` rounded (half away from zero)
at the fourth decimal. -/
def round4 (q : ℚ) : ℚ :=
  (jsRound (q * 10000) : ℚ) / 10000

/-- `k`-digit zero-padded decimal rendering of `n % 10^k`. -/
def padDigits (k n : ℕ) : String :=
  String.mk ((List.range k).reverse.map (fun i => Nat.digitChar (n / 10 ^ i % 10)))

/-- JS default number-to-string conversion (template literal / `String(n)`)
on a rational: shortest decimal form, no trailing zeros, no decimal point
for integers.  For rationals with no finite decimal expansion (which the
plugin never produces from decimal inputs) we fall back to a `num/den`
rendering; scientific notation for very large/small magnitudes is not
modelled. -/
def fmtNum (q : ℚ) : String :=
  match (List.range 21).find? (fun k => (q * (10 ^ k : ℚ)).den = 1) with
  | some k =>
    let m := (q * (10 ^ k : ℚ)).num
    let s := if m < 0 then "-" else ""
    let a := m.natAbs
    if k = 0 then s ++ Nat.repr a
    else s ++ Nat.repr (a / 10 ^ k) ++ "." ++ padDigits k (a % 10 ^ k)
  | none => (if q.num < 0 then "-" else "") ++ Nat.repr q.num.natAbs ++ "/" ++ Nat.repr q.den

/-- `q.toFixed(4)` for a nonnegative rational: exactly four decimal places,
rounded half up. -/
def toFixed4Pos (q : ℚ) : String :=
  let m := (⌊q * 10000 + 1/2⌋).toNat
  Nat.repr (m / 10000) ++ "." ++ padDigits 4 (m % 10000)

/-- `q.toFixed(4)`: the ECMAScript algorithm extracts the sign and formats
the magnitude with exactly four decimals. -/
def toFixed4 (q : ℚ) : String :=
  if q < 0 then "-" ++ toFixed4Pos (-q) else toFixed4Pos q

/-- `pxToRem` (src/index.js line 23):
`(px) => parseFloat((px / 16).toFixed(4)) + "rem"` — divide by 16, round to
4 decimals, re-parse (which drops trailing zeros and a trailing point) and
append `rem`. -/
def pxToRem (px : ℚ) : String :=
  fmtNum (round4 (px / 16)) ++ "rem"

/-- Message thrown by `validateMinMax` (src/index.js lines 32-38). -/
def minMaxMsg (context : String) (mn mx : ℚ) : String :=
  "[postcss-ruler] Invalid " ++ context ++ ": min (" ++ fmtNum mn ++
    ") must be less than max (" ++ fmtNum mx ++ ")"

/-- `validateMinMax` (src/index.js lines 32-38): throws when `min >= max`. -/
def validateMinMax (mn mx : ℚ) (context : String) : Except String Unit :=
  if mx ≤ mn then .error (minMaxMsg context mn mx) else .ok ()

/-- `calculateClamp` (src/index.js lines 49-64).  Equal sizes short-circuit
to a static rem value with no validation at all; otherwise sizes and then
widths are validated and the fluid clamp expression is rendered, with the
`vw` coefficient via `toFixed(4)` (trailing zeros kept) and the rem parts
via `pxToRem` (trailing zeros stripped). -/
def calculateClamp (minSize maxSize minWidth maxWidth : ℚ) : Except String String :=
  if minSize = maxSize then .ok (pxToRem minSize)
  else
    match validateMinMax minSize maxSize "size" with
    | .error e => .error e
    | .ok _ =>
      match validateMinMax minWidth maxWidth "width" with
      | .error e => .error e
      | .ok _ =>
        let slope := (maxSize - minSize) / (maxWidth - minWidth)
        let intersect := -minWidth * slope + minSize
        .ok ("clamp(" ++ pxToRem minSize ++ ", " ++ toFixed4 (slope * 100) ++
          "vw + " ++ pxToRem intersect ++ ", " ++ pxToRem maxSize ++ ")")

/-- The error component of an `Except` result, `none` on success. -/
def errOf : Except String α → Option String
  | .error e => some e
  | .ok _ => none

/-- A named size pair `{ name, values: [minSize, maxSize] }` as produced from
the parsed pairs mapping (src/index.js lines 276-278). -/
structure SizePair where
  name : String
  values : ℚ × ℚ
deriving DecidableEq

/-- One generated scale step `{ label, clamp }` (src/index.js lines 81-89). -/
structure ScaleEntry where
  label : String
  clamp : String
deriving DecidableEq

/-- Exception-propagating map, the pure counterpart of calling a throwing
function inside `Array.prototype.map`: the first thrown error aborts. -/
def mapE (f : α → Except ε β) : List α → Except ε (List β)
  | [] => .ok []
  | a :: as =>
    match f a with
    | .error e => .error e
    | .ok b =>
      match mapE f as with
      | .error e => .error e
      | .ok bs => .ok (b :: bs)

/-- The base entry for one pair (src/index.js lines 81-89): label is the
pair's name, value is the clamp of its own min and max. -/
def baseEntry (minWidth maxWidth : ℚ) (p : SizePair) : Except String ScaleEntry :=
  (calculateClamp p.values.1 p.values.2 minWidth maxWidth).map
    (fun c => { label := p.name, clamp := c })

/-- All ordered index pairs `(i, j)` with `i < j` of the nested loops in
src/index.js lines 93-94, materialised as element pairs in iteration order:
`i` from first to last, `j` over the elements after `i`. -/
def crossPairsList : List SizePair → List (SizePair × SizePair)
  | [] => []
  | p :: rest => rest.map (fun q => (p, q)) ++ crossPairsList rest

/-- One cross-pair entry (src/index.js lines 95-106).  The two-element
`Array.prototype.sort` with comparator `a.values[0] - b.values[0]` is
stable, so the pair listed first stays first unless the second one has a
strictly smaller `minSize`.  Label is `smaller.name + "-" + larger.name`,
value spans from the smaller pair's min to the larger pair's max. -/
def crossOf (minWidth maxWidth : ℚ) (p q : SizePair) : Except String ScaleEntry :=
  let sl := if q.values.1 < p.values.1 then (q, p) else (p, q)
  (calculateClamp sl.1.values.1 sl.2.values.2 minWidth maxWidth).map
    (fun c => { label := sl.1.name ++ "-" ++ sl.2.name, clamp := c })

/-- `generateClamps` (src/index.js lines 75-113): base entries in definition
order, then, when `generateAllCrossPairs` is set, the cross-pair entries in
`(i, j)` iteration order. -/
def generateClamps (pairs : List SizePair) (minWidth maxWidth : ℚ)
    (generateAllCrossPairs : Bool) : Except String (List ScaleEntry) :=
  match mapE (baseEntry minWidth maxWidth) pairs with
  | .error e => .error e
  | .ok clampScales =>
    if generateAllCrossPairs then
      match mapE (fun pq => crossOf minWidth maxWidth pq.1 pq.2) (crossPairsList pairs) with
      | .error e => .error e
      | .ok crossPairs => .ok (clampScales ++ crossPairs)
    else .ok clampScales

/-! ### Token stream and the pairs sub-pass -/

/-- The token kinds of the host value tokenizer that survive the filter in
`processFluidAtRule` / `processUtilityAtRule` (src/index.js lines 262-267,
309-314). -/
inductive TokenType where
  | word
  | string
  | function
deriving DecidableEq

/-- One lexical token: a type and its text (quotes already absent on
string-type tokens, as the host tokenizer reports them). -/
structure Token where
  type : TokenType
  value : String
deriving DecidableEq

/-- JS `Number(string)` coercion restricted to plain decimal notation,
`none` playing the role of NaN.  The empty or all-whitespace string
coerces to `0`; hexadecimal, exponent notation and `Infinity` are not
modelled (the directive surface never produces them). -/
def jsNumber (s : String) : Option ℚ :=
  let t := s.trim
  if t = "" then some 0
  else
    let (sgn, body) :=
      match t.toList with
      | '-' :: r => ((-1 : ℚ), r)
      | '+' :: r => ((1 : ℚ), r)
      | l => ((1 : ℚ), l)
    let intPart := body.takeWhile (·.isDigit)
    let rest := body.drop intPart.length
    match rest with
    | [] =>
      if intPart.isEmpty then none
      else some (sgn * (Nat.ofDigits 10 (intPart.map (·.toNat - '0'.toNat)).reverse : ℚ))
    | '.' :: frac =>
      if frac.all (·.isDigit) ∧ ¬(intPart.isEmpty ∧ frac.isEmpty) then
        some (sgn * ((Nat.ofDigits 10 (intPart.map (·.toNat - '0'.toNat)).reverse : ℚ) +
          (Nat.ofDigits 10 (frac.map (·.toNat - '0'.toNat)).reverse : ℚ) / 10 ^ frac.length))
      else none
    | _ => none

/-- Remove the first occurrence of a character, as JS
`String.prototype.replace` with a plain-string pattern does. -/
def removeFirst (c : Char) : List Char → List Char
  | [] => []
  | x :: xs => if x = c then xs else x :: removeFirst c xs

/-- `param.value.replace("[", "").replace("]", "")` (src/index.js line 172):
strips the FIRST `[` and the FIRST `]` only. -/
def stripBrackets (s : String) : String :=
  String.mk (removeFirst ']' (removeFirst '[' s.toList))

/-- `Array.prototype.findIndex` on token values (src/index.js line 163). -/
def findValueIdx (s : String) : List Token → Option ℕ
  | [] => none
  | t :: ts => if t.value = s then some 0 else (findValueIdx s ts).map (· + 1)

/-- JS-object insert-or-update on an insertion-ordered association list:
an existing key keeps its position, a new key is appended. -/
def updateAssoc : List (String × α) → String → α → List (String × α)
  | [], k, v => [(k, v)]
  | (k', v') :: rest, k, v =>
    if k' = k then (k, v) :: rest else (k', v') :: updateAssoc rest k v

/-- Association-list lookup (JS object property read). -/
def lookupAssoc : List (String × α) → String → Option α
  | [], _ => none
  | (k', v') :: rest, k => if k' = k then some v' else lookupAssoc rest k

/-- Loop state of `extractPairs` (src/index.js lines 167-189).  JS stores the
`currentValues` ARRAY REFERENCE into the result object when the pair commits
(`pairs[currentName] = currentValues`), so later pushes into the same array
are visible through the committed entry; `committed` records whether the
entry currently aliases `currentValues`, and the alias is re-materialised
into `pairs` on every push while it holds. -/
structure EPState where
  pairs : List (String × List ℚ)
  currentName : Option String
  currentValues : List ℚ
  committed : Bool

/-- The commit check `if (currentName && currentValues.length === 2)
pairs[currentName] = currentValues` (src/index.js lines 176-178 and
186-188). -/
def commitIfTwo (st : EPState) : EPState :=
  match st.currentName with
  | some nm =>
    if st.currentValues.length = 2 then
      { st with pairs := updateAssoc st.pairs nm st.currentValues, committed := true }
    else st
  | none => st

/-- One iteration of the `extractPairs` loop body (src/index.js lines
170-189). -/
def epStep (st : EPState) (tok : Token) : EPState :=
  let value := stripBrackets tok.value
  if value = "" ∨ value = "[" ∨ value = "]" then st
  else
    let st' :=
      if tok.type = TokenType.string then
        let st₁ := commitIfTwo st
        { st₁ with currentName := some value, currentValues := [], committed := false }
      else
        match jsNumber value with
        | some n =>
          let vs := st.currentValues ++ [n]
          if st.committed then
            { st with currentValues := vs,
                      pairs := updateAssoc st.pairs (st.currentName.getD "") vs }
          else
            { st with currentValues := vs }
        | none => st
    commitIfTwo st'

/-- `extractPairs` (src/index.js lines 161-192): scan forward from the token
after the literal key `pairs`; if that key is absent return the empty
mapping. -/
def extractPairs (params : List Token) : List (String × List ℚ) :=
  match findValueIdx "pairs" params with
  | none => []
  | some i => ((params.drop (i + 1)).foldl epStep ⟨[], none, [], false⟩).pairs

/-- Error thrown when the extracted pairs mapping is empty (src/index.js
line 273). -/
def msgNoPairs : String := "[postcss-ruler] No pairs defined in @ruler scale()"

/-- The pairs-extraction stage of `processFluidAtRule` (src/index.js lines
270-274): extract the pairs and fail fatally when the mapping is empty. -/
def scalePairsStage (params : List Token) : Except String (List (String × List ℚ)) :=
  let pairs := extractPairs params
  if pairs.isEmpty then .error msgNoPairs else .ok pairs

/-! ### Run configuration and the scale registry -/

/-- The registry of generated scales: `const scales = {}` (src/index.js
line 16), an insertion-ordered mapping from prefix to scale entries. -/
abbrev Registry := List (String × List ScaleEntry)

/-- The merged run configuration `Object.assign(DEFAULTS, opts)`
(src/index.js lines 7-13).  Field defaults are the plugin DEFAULTS; a
`scales` key may be supplied by the caller in `opts` (the shape claimed by
the documentation), and the merge keeps it on the config object — but no
code of the plugin ever reads `config.scales`. -/
structure Config where
  minWidth : ℚ := 320
  maxWidth : ℚ := 1760
  generateAllCrossPairs : Bool := false
  lowSpecificity : Bool := false
  scales : Registry := []
deriving DecidableEq

/-- The run configuration with an empty `opts` object. -/
def defaultConfig : Config := {}

/-- Initial registry of a plugin instance: `const scales = {}` (src/index.js
line 16).  The configuration is taken as an argument to record that the
initial registry does not depend on it — in particular `config.scales`
never seeds it. -/
def initialRegistry (_cfg : Config) : Registry := []

/-- `scales[clampsParams.prefix] = clampScale` (src/index.js line 285):
store a generated scale under its prefix, replacing any entry already
stored under the same key. -/
def storeScale (reg : Registry) (pre : String) (entries : List ScaleEntry) : Registry :=
  updateAssoc reg pre entries

/-! ### Utility directive processing -/

/-- The configuration object built by `parseUtilityParams` (src/index.js
lines 199-254).  Every field is initialised to `null` (here `none`) and is
only assigned when the matching key occurs among the tokens, so an absent
parameter stays `none`.  `property` is either a single scalar string or an
array of strings. -/
structure UtilityParams where
  selector : Option String := none
  property : Option (String ⊕ List String) := none
  scale : Option String := none
  generateAllCrossPairs : Option Bool := none
  attr : Option String := none
  lowSpecificity : Option Bool := none
deriving DecidableEq

/-- JS falsiness of a nullable string: `null` and `""` are falsy. -/
def strFalsy : Option String → Bool
  | none => true
  | some s => s = ""

/-- JS falsiness of the `property` field: `null` and `""` are falsy, an
array (even an empty one) is truthy. -/
def propFalsy : Option (String ⊕ List String) → Bool
  | none => true
  | some (.inl s) => s = ""
  | some (.inr _) => false

/-- Character class of the attribute-name regex `^[a-zA-Z0-9_-]+$`
(src/index.js line 330). -/
def isAttrChar (c : Char) : Bool :=
  c.isAlpha || c.isDigit || c = '-' || c = '_'

/-- Entry selection in `processUtilityAtRule` (src/index.js lines 362-367):
only an EXPLICIT `generateAllCrossPairs: false` filters out the entries
whose label contains a hyphen; `null` (absent) and `true` keep the whole
scale. -/
def scaleItemsOf (gacp : Option Bool) (scale : List ScaleEntry) : List ScaleEntry :=
  if gacp = some false then
    scale.filter (fun item => !(item.label.contains '-'))
  else scale

/-- One generated rule: a selector and its declarations in order. -/
structure CSSRule where
  selector : String
  decls : List (String × String)
deriving DecidableEq

/-- Rule construction for one scale item (src/index.js lines 375-417). -/
def mkUtilityRule (p : UtilityParams) (properties : List String) (item : ScaleEntry) : CSSRule :=
  let pair :=
    if strFalsy p.attr = false then
      let attrSelector := "[" ++ p.attr.getD "" ++ "=\x22" ++ item.label ++ "\x22]"
      let baseSelector :=
        if strFalsy p.selector = false then p.selector.getD "" ++ attrSelector
        else attrSelector
      let ruleSelector :=
        if p.lowSpecificity = some true then ":where(" ++ baseSelector ++ ")"
        else baseSelector
      (ruleSelector, "var(--" ++ p.scale.getD "" ++ "-" ++ item.label ++ ")")
    else
      let sel := p.selector.getD ""
      let baseSelector := sel ++ "-" ++ item.label
      let ruleSelector :=
        if p.lowSpecificity = some true then
          if sel.endsWith " &" then
            sel.dropRight 1 ++ ":where(&-" ++ item.label ++ ")"
          else ":where(" ++ baseSelector ++ ")"
        else baseSelector
      (ruleSelector, item.clamp)
  { selector := pair.1,
    decls := properties.map (fun prop => (prop, pair.2)) }

/-- Error messages of `processUtilityAtRule` (src/index.js lines 323-360). -/
def msgAttrEmpty : String :=
  "[postcss-ruler] @ruler utility() attribute parameter cannot be empty"

/-- See `msgAttrEmpty`. -/
def msgAttrChars : String :=
  "[postcss-ruler] @ruler utility() attribute parameter must contain only letters, numbers, hyphens, and underscores"

/-- See `msgAttrEmpty`. -/
def msgNeedSelOrAttr : String :=
  "[postcss-ruler] @ruler utility() requires either \x22selector\x22 or \x22attribute\x22 parameter"

/-- See `msgAttrEmpty`. -/
def msgNeedProperty : String :=
  "[postcss-ruler] @ruler utility() requires a \x22property\x22 parameter"

/-- See `msgAttrEmpty`. -/
def msgNeedScale : String :=
  "[postcss-ruler] @ruler utility() requires a \x22scale\x22 parameter"

/-- The unknown-scale error message as the code writes it (src/index.js
lines 357-359), with `@ruler` before `scale()`. -/
def msgScaleNotFound (s : String) : String :=
  "[postcss-ruler] Scale \x22" ++ s ++ "\x22 not found. Define it with @ruler scale() first."

/-- `processUtilityAtRule` after parameter parsing (src/index.js lines
316-419): resolve `lowSpecificity` from the run config when null (NOTE:
`generateAllCrossPairs` gets no such resolution), run the validation chain
in source order, look up the scale, select entries and build the rules. -/
def processUtilityAtRule (cfg : Config) (reg : Registry) (p0 : UtilityParams) :
    Except String (List CSSRule) :=
  let p :=
    if p0.lowSpecificity = none then
      { p0 with lowSpecificity := some cfg.lowSpecificity }
    else p0
  if p.attr = some "" then .error msgAttrEmpty
  else if (match p.attr with
           | some a => !(a.toList.all isAttrChar)
           | none => false) then .error msgAttrChars
  else if strFalsy p.selector && strFalsy p.attr then .error msgNeedSelOrAttr
  else if propFalsy p.property then .error msgNeedProperty
  else if strFalsy p.scale then .error msgNeedScale
  else
    match lookupAssoc reg (p.scale.getD "") with
    | none => .error (msgScaleNotFound (p.scale.getD ""))
    | some scale =>
      let scaleItems := scaleItemsOf p.generateAllCrossPairs scale
      let properties :=
        match p.property with
        | some (.inr l) => l
        | some (.inl s) => [s]
        | none => []
      .ok (scaleItems.map (mkUtilityRule p properties))

/-! ### Inline ruler.fluid() declarations -/

/-- Error thrown for a falsy min or max size (src/index.js lines 441-445). -/
def msgFluidRequires : String :=
  "[postcss-ruler] ruler.fluid() requires minSize and maxSize"

/-- `minWidth || config.minWidth` (src/index.js lines 438-439): a falsy
width argument — missing (`undefined`), `NaN` or `0` — falls back to the
run-level default. -/
def resolveWidth (w : Option ℚ) (d : ℚ) : ℚ :=
  match w with
  | none => d
  | some q => if q = 0 then d else q

/-- Splitting and coercing the argument text of one `ruler.fluid(...)`
match (src/index.js lines 432-435): split on commas, trim, `Number(...)`. -/
def parseFluidArgs (s : String) : List (Option ℚ) :=
  (s.splitOn ",").map (fun t => jsNumber t.trim)

/-- Processing of one `ruler.fluid(<args>)` occurrence in a declaration
value (src/index.js lines 431-452): positional `(minSize, maxSize,
minWidth, maxWidth)` where a missing position is `undefined` (falsy, like
`0` and `NaN`); widths fall back to run defaults, a falsy size is fatal,
otherwise the computed clamp replaces the matched text. -/
def processFluidCall (cfg : Config) (args : List (Option ℚ)) : Except String String :=
  let minWidth := resolveWidth (args.getD 2 none) cfg.minWidth
  let maxWidth := resolveWidth (args.getD 3 none) cfg.maxWidth
  match args.getD 0 none, args.getD 1 none with
  | some minSize, some maxSize =>
    if minSize = 0 ∨ maxSize = 0 then .error msgFluidRequires
    else calculateClamp minSize maxSize minWidth maxWidth
  | _, _ => .error msgFluidRequires

/-! ### Specification-side definitions and demonstration inputs -/

/-- Modelled from the spec, for refinement comparison (claim about the
validation order of the utility directive): the six checks in the claimed
order, first failing check wins, parameterised by the wording of the
unknown-scale message so that both the claimed wording and the code's
wording can be compared against `processUtilityAtRule`. -/
def utilityValidationOrder (notFound : String → String) (reg : Registry)
    (p : UtilityParams) : Option String :=
  if p.attr = some "" then some msgAttrEmpty
  else if (match p.attr with
           | some a => !(a.toList.all isAttrChar)
           | none => false) then some msgAttrChars
  else if strFalsy p.selector && strFalsy p.attr then some msgNeedSelOrAttr
  else if propFalsy p.property then some msgNeedProperty
  else if strFalsy p.scale then some msgNeedScale
  else
    match lookupAssoc reg (p.scale.getD "") with
    | none => some (notFound (p.scale.getD ""))
    | some _ => none

/-- The unknown-scale message exactly as the claim quotes it (no `@ruler`
before `scale()`). -/
def claimScaleNotFound (s : String) : String :=
  "Scale \x22" ++ s ++ "\x22 not found. Define it with scale() first."

/-- Decidable prefix test on character lists. -/
def isPre : List Char → List Char → Bool
  | [], _ => true
  | _ :: _, [] => false
  | a :: as, b :: bs => a = b && isPre as bs

/-- Decidable substring (contiguous) test on character lists. -/
def hasSub (n : List Char) : List Char → Bool
  | [] => isPre n []
  | c :: rest => isPre n (c :: rest) || hasSub n rest

/-- Invariant of the `extractPairs` loop: every committed entry holds at
least two values, and while the current pair is committed its accumulating
list has at least two values. -/
def EPInv (st : EPState) : Prop :=
  (∀ e ∈ st.pairs, 2 ≤ e.2.length) ∧ (st.committed = true → 2 ≤ st.currentValues.length)

/-- The two pairs of the cross-pair example (`xs:[8,16]`, `sm:[16,24]`). -/
def demoPairs : List SizePair := [⟨"xs", (8, 16)⟩, ⟨"sm", (16, 24)⟩]

/-- The scale generated from `demoPairs` with cross pairs enabled. -/
def demoEntries : List ScaleEntry :=
  [⟨"xs", "clamp(0.5rem, 0.5556vw + 0.3889rem, 1rem)"⟩,
   ⟨"sm", "clamp(1rem, 0.5556vw + 0.8889rem, 1.5rem)"⟩,
   ⟨"xs-sm", "clamp(0.5rem, 1.1111vw + 0.2778rem, 1.5rem)"⟩]

/-- Utility parameters leaving `generateAllCrossPairs` absent (`null`). -/
def demoUtilityParams : UtilityParams :=
  { selector := some ".gap", property := some (Sum.inl "gap"), scale := some "space" }

/-- Tokens of a scale directive in which every named pair is incomplete
(fewer than two numeric values). -/
def incompleteTokens : List Token :=
  [⟨TokenType.word, "pairs"⟩, ⟨TokenType.string, "a"⟩, ⟨TokenType.word, "1"⟩,
   ⟨TokenType.string, "b"⟩, ⟨TokenType.word, "2"⟩]

/-- Tokens in which pair `a` stays incomplete but pair `b` completes. -/
def mixedTokens : List Token :=
  [⟨TokenType.word, "pairs"⟩, ⟨TokenType.string, "a"⟩, ⟨TokenType.word, "1"⟩,
   ⟨TokenType.string, "b"⟩, ⟨TokenType.word, "2"⟩, ⟨TokenType.word, "3"⟩]

end Ruler

namespace Ruler

/-! ### Helper lemmas -/

/-- A successful `mapE` preserves length. -/
theorem mapE_ok_length {f : α → Except ε β} :
    ∀ {l : List α} {l' : List β}, mapE f l = .ok l' → l'.length = l.length := by
  intro l
  induction l with
  | nil => intro l' h; simp [mapE] at h; simp [h]
  | cons a as ih =>
    intro l' h
    simp only [mapE] at h
    cases hfa : f a with
    | error e => rw [hfa] at h; simp at h
    | ok b =>
      rw [hfa] at h
      cases has : mapE f as with
      | error e => rw [has] at h; simp at h
      | ok bs =>
        rw [has] at h
        simp at h
        subst h
        simp [ih has]

/-- The nested `(i, j)` loops enumerate exactly `C(n, 2)` pairs. -/
theorem crossPairsList_length : ∀ l : List SizePair,
    (crossPairsList l).length = Nat.choose l.length 2 := by
  intro l
  induction l with
  | nil => rfl
  | cons p rest ih =>
    simp [crossPairsList, ih, Nat.choose_succ_succ, Nat.choose_one_right, Nat.add_comm]

/-- Reading back the key just written by `updateAssoc` yields the new value. -/
theorem lookup_updateAssoc {α : Type} : ∀ (l : List (String × α)) (k : String) (v : α),
    lookupAssoc (updateAssoc l k v) k = some v := by
  intro l k v
  induction l with
  | nil => simp [updateAssoc, lookupAssoc]
  | cons kv rest ih =>
    by_cases h : kv.1 = k
    · simp [updateAssoc, lookupAssoc, h]
    · simp [updateAssoc, lookupAssoc, h, ih]

/-- Membership after `updateAssoc`: an element is an old one or the new
binding. -/
theorem mem_updateAssoc {α : Type} {e : String × α} :
    ∀ {l : List (String × α)} {k : String} {v : α},
      e ∈ updateAssoc l k v → e ∈ l ∨ e = (k, v) := by
  intro l
  induction l with
  | nil => intro k v h; simp [updateAssoc] at h; simp [h]
  | cons kv rest ih =>
    intro k v h
    by_cases hk : kv.1 = k
    · simp [updateAssoc, hk] at h
      rcases h with h | h
      · right; simp [h]
      · left; simp [h]
    · simp [updateAssoc, hk] at h
      rcases h with h | h
      · left; simp [h]
      · rcases ih h with h1 | h1
        · left; simp [h1]
        · right; exact h1

/-- The commit step preserves the `extractPairs` invariant. -/
theorem commitIfTwo_inv {st : EPState} (h : EPInv st) : EPInv (commitIfTwo st) := by
  obtain ⟨h1, h2⟩ := h
  unfold commitIfTwo
  cases hn : st.currentName with
  | none => exact ⟨h1, h2⟩
  | some nm =>
    dsimp only
    by_cases hl : st.currentValues.length = 2
    · rw [if_pos hl]
      refine ⟨?_, fun _ => by simp; omega⟩
      intro e he
      rcases mem_updateAssoc he with hm | hm
      · exact h1 e hm
      · subst hm; simp; omega
    · rw [if_neg hl]
      exact ⟨h1, h2⟩

/-- One loop iteration preserves the `extractPairs` invariant. -/
theorem epStep_inv {st : EPState} (t : Token) (h : EPInv st) : EPInv (epStep st t) := by
  unfold epStep
  dsimp only
  split
  · exact h
  · apply commitIfTwo_inv
    split
    · exact ⟨(commitIfTwo_inv h).1, by simp⟩
    · split
      · split
        · refine ⟨?_, ?_⟩
          · intro e he
            rcases mem_updateAssoc he with hm | hm
            · exact h.1 e hm
            · subst hm
              have := h.2 (by assumption)
              simp
              omega
          · intro hc
            have := h.2 hc
            simp
            omega
        · refine ⟨h.1, ?_⟩
          intro hc
          have := h.2 hc
          simp
          omega
      · exact h

/-- The whole loop preserves the `extractPairs` invariant. -/
theorem foldl_epStep_inv : ∀ (l : List Token) (st : EPState),
    EPInv st → EPInv (l.foldl epStep st) := by
  intro l
  induction l with
  | nil => intro st h; exact h
  | cons t ts ih => intro st h; exact ih _ (epStep_inv t h)

/-- Every entry of an extracted pairs mapping holds at least two values. -/
theorem extractPairs_two_le : ∀ (params : List Token) (e : String × List ℚ),
    e ∈ extractPairs params → 2 ≤ e.2.length := by
  intro params e he
  unfold extractPairs at he
  cases hf : findValueIdx "pairs" params with
  | none => rw [hf] at he; simp at he
  | some i =>
    rw [hf] at he
    have hinv := foldl_epStep_inv ((params.drop (i + 1))) ⟨[], none, [], false⟩
      ⟨by intro x hx; simp at hx, by simp⟩
    exact hinv.1 e he

/-- `findIndex` misses when no token carries the searched value. -/
theorem findValueIdx_none : ∀ (params : List Token),
    (∀ t ∈ params, t.value ≠ "pairs") → findValueIdx "pairs" params = none := by
  intro params h
  induction params with
  | nil => rfl
  | cons t ts ih =>
    simp only [findValueIdx]
    rw [if_neg (h t (by simp))]
    rw [ih (fun u hu => h u (by simp [hu]))]
    rfl

/-! ### Claim theorems -/

/-- C3: for every `x`, `calculateClamp` with `minSize = maxSize = x` returns
exactly `pxToRem x`, with no validation of the width bounds at all — the
same result is returned without error for every `w1`, `w2`, including
`w1 >= w2`. -/
theorem c3_static_collapse (x w1 w2 : ℚ) :
    calculateClamp x x w1 w2 = .ok (pxToRem x) := by
  simp [calculateClamp]

/-- C4: for every input with `minSize < maxSize` and `minWidth < maxWidth`,
`calculateClamp` renders `clamp(pxToRem minSize, S vw + pxToRem intersect,
pxToRem maxSize)` with `slope = (maxSize-minSize)/(maxWidth-minWidth)`,
`intersect = -minWidth*slope + minSize` and `S = toFixed4 (slope*100)`
(exactly four decimals, trailing zeros retained, unlike the rem parts which
strip them — witnessed by `toFixed4 (1/2) = "0.5000"` versus
`pxToRem 8 = "0.5rem"`); the round-trip example evaluates to
`clamp(1rem, 0.5556vw + 0.8889rem, 1.5rem)`. -/
theorem c4_fluid_render :
    (∀ ms Ms mw Mw : ℚ, ms < Ms → mw < Mw →
      calculateClamp ms Ms mw Mw =
        .ok ("clamp(" ++ pxToRem ms ++ ", " ++
          toFixed4 (((Ms - ms) / (Mw - mw)) * 100) ++ "vw + " ++
          pxToRem (-mw * ((Ms - ms) / (Mw - mw)) + ms) ++ ", " ++
          pxToRem Ms ++ ")"))
    ∧ calculateClamp 16 24 320 1760 = .ok "clamp(1rem, 0.5556vw + 0.8889rem, 1.5rem)"
    ∧ toFixed4 (1/2) = "0.5000"
    ∧ pxToRem 8 = "0.5rem" := by
  refine ⟨?_, by with_unfolding_all rfl, by with_unfolding_all rfl, by with_unfolding_all rfl⟩
  intro ms Ms mw Mw h1 h2
  simp [calculateClamp, validateMinMax, ne_of_lt h1, not_le.mpr h1, not_le.mpr h2]

/-- C4 witness: the universal clause instantiated at the round-trip
example. -/
theorem c4_witness :
    calculateClamp 16 24 320 1760 =
      .ok ("clamp(" ++ pxToRem 16 ++ ", " ++
        toFixed4 ((((24 : ℚ) - 16) / (1760 - 320)) * 100) ++ "vw + " ++
        pxToRem (-320 * (((24 : ℚ) - 16) / (1760 - 320)) + 16) ++ ", " ++
        pxToRem 24 ++ ")") :=
  c4_fluid_render.1 16 24 320 1760 (by norm_num) (by norm_num)

/-- C5: `calculateClamp` fails with message
`[postcss-ruler] Invalid size: min (<min>) must be less than max (<max>)`
whenever `minSize > maxSize`, with the `width` context tag whenever
`minSize < maxSize` but `minWidth >= maxWidth` (equal widths included), and
equal sizes are the sole non-error equal-value case. -/
theorem c5_validation_errors :
    (∀ ms Ms mw Mw : ℚ, Ms < ms →
      calculateClamp ms Ms mw Mw = .error (minMaxMsg "size" ms Ms))
    ∧ (∀ ms Ms mw Mw : ℚ, ms < Ms → Mw ≤ mw →
      calculateClamp ms Ms mw Mw = .error (minMaxMsg "width" mw Mw))
    ∧ (∀ s mw Mw : ℚ, errOf (calculateClamp s s mw Mw) = none)
    ∧ calculateClamp 24 16 320 1760 =
        .error "[postcss-ruler] Invalid size: min (24) must be less than max (16)"
    ∧ calculateClamp 16 24 1000 1000 =
        .error "[postcss-ruler] Invalid width: min (1000) must be less than max (1000)" := by
  refine ⟨?_, ?_, ?_, by with_unfolding_all rfl, by with_unfolding_all rfl⟩
  · intro ms Ms mw Mw h
    simp [calculateClamp, validateMinMax, (ne_of_lt h).symm, le_of_lt h]
  · intro ms Ms mw Mw h1 h2
    simp [calculateClamp, validateMinMax, ne_of_lt h1, not_le.mpr h1, h2]
  · intro s mw Mw
    simp [calculateClamp, errOf]

/-- C5 witness: the size clause instantiated at `(24, 16)`. -/
theorem c5_witness :
    calculateClamp 24 16 320 1760 = .error (minMaxMsg "size" 24 16) :=
  c5_validation_errors.1 24 16 320 1760 (by norm_num)

/-- C6: with `generateAllCrossPairs = true` and `n` pairs, `generateClamps`
returns the `n` base entries in definition order followed by exactly
`C(n, 2)` cross entries, one per ordered pair `(i, j)` with `i < j` in the
nested-loop iteration order; each cross entry is labelled
`<smaller.name>-<larger.name>` with smaller the pair of lower `minSize`
and its value `calculateClamp smaller.min larger.max`; the pairs
`xs:[8,16]`, `sm:[16,24]` produce exactly one cross entry `xs-sm` with
value `clamp(0.5rem, 1.1111vw + 0.2778rem, 1.5rem)`. -/
theorem c6_cross_pair_generation :
    (∀ (pairs : List SizePair) (mw Mw : ℚ) (base cross : List ScaleEntry),
      mapE (baseEntry mw Mw) pairs = .ok base →
      mapE (fun pq => crossOf mw Mw pq.1 pq.2) (crossPairsList pairs) = .ok cross →
      generateClamps pairs mw Mw true = .ok (base ++ cross) ∧
        base.length = pairs.length ∧ cross.length = Nat.choose pairs.length 2)
    ∧ (∀ (mw Mw : ℚ) (p q : SizePair), p.values.1 ≤ q.values.1 →
      crossOf mw Mw p q = (calculateClamp p.values.1 q.values.2 mw Mw).map
        (fun c => { label := p.name ++ "-" ++ q.name, clamp := c }))
    ∧ generateClamps demoPairs 320 1760 true = .ok demoEntries := by
  refine ⟨?_, ?_, by with_unfolding_all rfl⟩
  · intro pairs mw Mw base cross h1 h2
    refine ⟨?_, mapE_ok_length h1, by rw [mapE_ok_length h2, crossPairsList_length]⟩
    simp [generateClamps, h1, h2]
  · intro mw Mw p q h
    simp [crossOf, not_lt.mpr h]

/-- C6 witness: the structural clause instantiated at the two demo pairs. -/
theorem c6_witness :
    generateClamps demoPairs 320 1760 true =
      .ok (demoEntries.take 2 ++ demoEntries.drop 2) ∧
      (demoEntries.take 2).length = demoPairs.length ∧
      (demoEntries.drop 2).length = Nat.choose demoPairs.length 2 :=
  c6_cross_pair_generation.1 demoPairs 320 1760 (demoEntries.take 2) (demoEntries.drop 2)
    (by with_unfolding_all rfl) (by with_unfolding_all rfl)

/-- C1 counterexample: under the default run configuration, a utility
directive that leaves `generateAllCrossPairs` absent (null) does NOT
exclude the hyphen-labelled cross-pair entry: the scale stored with the
cross pair `xs-sm` expands into three rules, `.gap-xs-sm` included,
contradicting the claimed exclusion. -/
theorem c1_counterexample :
    processUtilityAtRule defaultConfig
      (storeScale (initialRegistry defaultConfig) "space" demoEntries)
      demoUtilityParams =
      .ok [⟨".gap-xs", [("gap", "clamp(0.5rem, 0.5556vw + 0.3889rem, 1rem)")]⟩,
           ⟨".gap-sm", [("gap", "clamp(1rem, 0.5556vw + 0.8889rem, 1.5rem)")]⟩,
           ⟨".gap-xs-sm", [("gap", "clamp(0.5rem, 1.1111vw + 0.2778rem, 1.5rem)")]⟩]
    ∧ demoUtilityParams.generateAllCrossPairs = none
    ∧ defaultConfig.generateAllCrossPairs = false := by
  refine ⟨by with_unfolding_all rfl, rfl, rfl⟩

/-- C1 (amended): a utility directive whose `generateAllCrossPairs` is
absent (null) is NOT resolved against the run-level default — only
`lowSpecificity` is; the hyphen-label filter applies only on an explicit
`false`, so with the parameter absent the utility behaves exactly as with
`true` and expands every entry, cross pairs included. -/
theorem c1_amended :
    (∀ (cfg : Config) (reg : Registry) (p : UtilityParams),
      processUtilityAtRule cfg reg { p with generateAllCrossPairs := none } =
        processUtilityAtRule cfg reg { p with generateAllCrossPairs := some true })
    ∧ (∀ scale : List ScaleEntry, scaleItemsOf none scale = scale)
    ∧ (∀ scale : List ScaleEntry, scaleItemsOf (some true) scale = scale)
    ∧ (∀ scale : List ScaleEntry, scaleItemsOf (some false) scale =
        scale.filter (fun item => !(item.label.contains '-'))) := by
  refine ⟨?_, fun s => rfl, fun s => rfl, fun s => rfl⟩
  intro cfg reg p
  obtain ⟨sel, prop, sc, g, ab, ls⟩ := p
  cases ls <;> rfl

/-- C2 counterexample: a run configuration carrying a `scales` mapping with
prefix `foo` does not pre-seed the registry — the registry starts empty and
a utility directive referencing `foo` fails with the scale-not-found
error. -/
theorem c2_counterexample :
    processUtilityAtRule
      { defaultConfig with scales := [("foo", [⟨"m", "1rem"⟩])] }
      (initialRegistry { defaultConfig with scales := [("foo", [⟨"m", "1rem"⟩])] })
      { selector := some ".x", property := some (Sum.inl "gap"), scale := some "foo" } =
      .error (msgScaleNotFound "foo") := by
  with_unfolding_all rfl

/-- C2 (amended): the run-level `scales` option never reaches the registry —
the registry of a plugin instance starts empty whatever the configuration —
and a scale directive's store replaces any entry already held under the
same prefix. -/
theorem c2_amended :
    (∀ cfg : Config, initialRegistry cfg = [])
    ∧ (∀ (reg : Registry) (pre : String) (entries : List ScaleEntry),
        lookupAssoc (storeScale reg pre entries) pre = some entries) :=
  ⟨fun _ => rfl, fun reg pre entries => lookup_updateAssoc reg pre entries⟩

/-- C7 counterexample: the unknown-scale failure carries the message
`[postcss-ruler] Scale "nope" not found. Define it with @ruler scale()
first.` — the claimed sentence `Scale "nope" not found. Define it with
scale() first.` (without `@ruler`) is not a substring of it. -/
theorem c7_counterexample :
    processUtilityAtRule defaultConfig []
      { selector := some ".gap", property := some (Sum.inl "gap"), scale := some "nope" } =
      .error (msgScaleNotFound "nope")
    ∧ hasSub (claimScaleNotFound "nope").toList (msgScaleNotFound "nope").toList = false := by
  constructor
  · with_unfolding_all rfl
  · with_unfolding_all rfl

/-- C7 (amended): utility-directive validation performs its checks exactly
in the claimed fixed order — (1) attribute present but empty, (2) attribute
with a character outside `[A-Za-z0-9_-]`, (3) neither selector nor
attribute, (4) property missing, (5) scale name missing, (6) scale unknown
— first failing check wins, each fatal, and the unknown-scale message is
`Scale "<name>" not found. Define it with @ruler scale() first.` -/
theorem c7_amended : ∀ (cfg : Config) (reg : Registry) (p : UtilityParams),
    errOf (processUtilityAtRule cfg reg p) = utilityValidationOrder msgScaleNotFound reg p := by
  intro cfg reg p
  unfold processUtilityAtRule utilityValidationOrder
  cases hls : p.lowSpecificity <;>
    simp only [hls, if_pos, if_neg, reduceCtorEq, ite_true, ite_false] <;>
    split <;> (try rfl) <;>
    split <;> (try rfl) <;>
    split <;> (try rfl) <;>
    split <;> (try rfl) <;>
    split <;> (try rfl) <;>
    (try split) <;> (try rfl)

/-- C8 counterexample: with tokens `pairs "a" 1 2 3` the committed entry
holds THREE values, not exactly two — the extra numeric token is appended
to the committed entry through the shared array reference rather than
being ignored. -/
theorem c8_counterexample :
    extractPairs [⟨TokenType.word, "pairs"⟩, ⟨TokenType.string, "a"⟩,
      ⟨TokenType.word, "1"⟩, ⟨TokenType.word, "2"⟩, ⟨TokenType.word, "3"⟩] =
      [("a", [1, 2, 3])] := by
  with_unfolding_all rfl

/-- C8 (amended): scanning starts after the `pairs` key token; each string
token starts a named pair, numeric tokens accumulate, and a pair commits on
its second value — additional numeric tokens before the next string key are
appended to the already committed entry, which therefore holds ALL its
accumulated values (at least two); with the `pairs` key absent the mapping
is empty and the caller fails with the no-pairs error. -/
theorem c8_amended :
    (∀ params : List Token, (∀ t ∈ params, t.value ≠ "pairs") →
      extractPairs params = [] ∧ scalePairsStage params = .error msgNoPairs)
    ∧ (∀ (params : List Token) (e : String × List ℚ),
        e ∈ extractPairs params → 2 ≤ e.2.length)
    ∧ extractPairs [⟨TokenType.word, "pairs"⟩, ⟨TokenType.string, "a"⟩,
        ⟨TokenType.word, "1"⟩, ⟨TokenType.word, "2"⟩] = [("a", [1, 2])] := by
  refine ⟨?_, extractPairs_two_le, by with_unfolding_all rfl⟩
  intro params h
  have he : extractPairs params = [] := by
    unfold extractPairs
    rw [findValueIdx_none params h]
  exact ⟨he, by unfold scalePairsStage; rw [he]; rfl⟩

/-- C8 witness: the absent-key clause at a token list without `pairs`. -/
theorem c8_witness :
    extractPairs [⟨TokenType.word, "minWidth"⟩, ⟨TokenType.word, "320"⟩] = [] ∧
      scalePairsStage [⟨TokenType.word, "minWidth"⟩, ⟨TokenType.word, "320"⟩] =
        .error msgNoPairs :=
  c8_amended.1 [⟨TokenType.word, "minWidth"⟩, ⟨TokenType.word, "320"⟩]
    (by intro t ht; fin_cases ht <;> simp)

/-- C9: in an inline `ruler.fluid(<args>)` call, a falsy third or fourth
argument (missing, NaN alias `none`, or `0`) resolves to the run-level
width default before the clamp is computed, while a falsy first or second
argument — a literal `0` size included — aborts with the
requires-minSize-and-maxSize error. -/
theorem c9_inline_fluid_args :
    (∀ (cfg : Config) (args : List (Option ℚ)),
      (args.getD 0 none = none ∨ args.getD 0 none = some 0 ∨
       args.getD 1 none = none ∨ args.getD 1 none = some 0) →
      processFluidCall cfg args = .error msgFluidRequires)
    ∧ (∀ (cfg : Config) (args : List (Option ℚ)) (a b : ℚ),
      args.getD 0 none = some a → a ≠ 0 → args.getD 1 none = some b → b ≠ 0 →
      processFluidCall cfg args =
        calculateClamp a b (resolveWidth (args.getD 2 none) cfg.minWidth)
          (resolveWidth (args.getD 3 none) cfg.maxWidth))
    ∧ (∀ (w : Option ℚ) (d : ℚ), w = none ∨ w = some 0 → resolveWidth w d = d)
    ∧ (∀ (q : ℚ) (d : ℚ), q ≠ 0 → resolveWidth (some q) d = q) := by
  refine ⟨?_, ?_, ?_, ?_⟩
  · intro cfg args h
    unfold processFluidCall
    cases ha : args.getD 0 none with
    | none => rfl
    | some a =>
      cases hb : args.getD 1 none with
      | none => rfl
      | some b =>
        have hab : a = 0 ∨ b = 0 := by
          rcases h with h | h | h | h
          · rw [ha] at h; cases h
          · rw [ha] at h; cases h; exact Or.inl rfl
          · rw [hb] at h; cases h
          · rw [hb] at h; cases h; exact Or.inr rfl
        dsimp only
        rw [if_pos hab]
  · intro cfg args a b ha ha0 hb hb0
    unfold processFluidCall
    rw [ha, hb]
    dsimp only
    rw [if_neg (not_or.mpr ⟨ha0, hb0⟩)]
  · intro w d h
    rcases h with h | h <;> simp [h, resolveWidth]
  · intro q d h
    simp [resolveWidth, h]

/-- C9 witness: a two-argument call resolves both widths to the defaults. -/
theorem c9_witness :
    processFluidCall defaultConfig [some 16, some 24] =
      calculateClamp 16 24 (resolveWidth none defaultConfig.minWidth)
        (resolveWidth none defaultConfig.maxWidth) :=
  c9_inline_fluid_args.2.1 defaultConfig [some 16, some 24] 16 24 rfl
    (by norm_num) rfl (by norm_num)

/-- C10: a named pair still short of two numeric values when the next
string token or the end of the tokens arrives is silently omitted, with no
pair-specific error; a directive whose every pair is incomplete therefore
fails with the generic no-pairs-defined error. -/
theorem c10_incomplete_pairs_omitted :
    (∀ params : List Token, extractPairs params = [] →
      scalePairsStage params = .error msgNoPairs)
    ∧ (∀ (params : List Token) (e : String × List ℚ),
        e ∈ extractPairs params → 2 ≤ e.2.length)
    ∧ extractPairs incompleteTokens = []
    ∧ scalePairsStage incompleteTokens = .error msgNoPairs
    ∧ extractPairs mixedTokens = [("b", [2, 3])] := by
  refine ⟨?_, extractPairs_two_le, by with_unfolding_all rfl,
    by with_unfolding_all rfl, by with_unfolding_all rfl⟩
  intro params he
  unfold scalePairsStage
  rw [he]
  rfl

/-- C10 witness: the empty-extraction clause at the all-incomplete
directive. -/
theorem c10_witness : scalePairsStage incompleteTokens = .error msgNoPairs :=
  c10_incomplete_pairs_omitted.1 incompleteTokens (by with_unfolding_all rfl)

end Ruler
